import Mathlib

/-!
Shallow embedding of the StewpotScraper class from webscraping.py.

The scraper drives a browser through the site of The Stewpot, enumerates
volunteering events on a paginated panel, opens each event page and
extracts four fields: title, shift dates, address and age restriction.
The extraction logic operates on parsed HTML; here each page is embedded
as a record holding exactly the pieces of content that the fixed
selectors of the source read, and every extraction method becomes a pure
function returning Except, with one error constructor per kind of Python
exception the corresponding code path can raise.

The Python string primitives the code relies on (split, strip, join,
lower, substring membership, int conversion) are given executable
models by structural recursion over the character list of a string, so
that every definition evaluates inside the kernel. They handle the
ASCII whitespace and digits that the scraped pages contain.
-/

deriving instance DecidableEq for Except

namespace Stewpot

/-- The Python exceptions that the scraping code paths can raise.
timeoutError stands for the browser-automation timeout raised by a click
on an element that is not present. -/
inductive PyError where
  | attributeError
  | valueError
  | indexError
  | timeoutError
deriving DecidableEq, Repr

/-- A calendar date, the value content of the datetime objects built by
datetime.strptime in get_event_dates (hour, minute and second are always
zero there). -/
structure Date where
  year : Nat
  month : Nat
  day : Nat
deriving DecidableEq, Repr

/-- Splitter behind the Python no-argument str.split(): walk the
characters accumulating the current word reversed, flush it at
whitespace, and discard empty pieces. -/
def pySplitAux : List Char → List Char → List (List Char)
  | [], cur => if cur = [] then [] else [cur.reverse]
  | c :: cs, cur =>
    if c.isWhitespace then
      if cur = [] then pySplitAux cs []
      else cur.reverse :: pySplitAux cs []
    else pySplitAux cs (c :: cur)

/-- Python str.split() with no argument: split on runs of whitespace,
discarding empty pieces, so leading and trailing whitespace is
ignored. -/
def pySplit (s : String) : List String :=
  (pySplitAux s.data []).map String.mk

/-- Python sep.join(parts). -/
def pyJoin (sep : String) : List String → String
  | [] => ""
  | [t] => t
  | t :: u :: ts => t ++ sep ++ pyJoin sep (u :: ts)

/-- Characters remaining after removing a leading run of whitespace. -/
def dropWhileWs : List Char → List Char
  | [] => []
  | c :: cs => if c.isWhitespace then dropWhileWs cs else c :: cs

/-- Python str.strip() with no argument: remove leading and trailing
whitespace. -/
def pyStrip (s : String) : String :=
  ⟨(dropWhileWs (dropWhileWs s.data).reverse).reverse⟩

/-- Whether the pattern is an initial segment of the characters. -/
def leadsWith : List Char → List Char → Bool
  | [], _ => true
  | _ :: _, [] => false
  | p :: ps, c :: cs => p == c && leadsWith ps cs

/-- Whether the pattern occurs as a contiguous segment. -/
def hasSubChars (pat : List Char) : List Char → Bool
  | [] => leadsWith pat []
  | c :: cs => leadsWith pat (c :: cs) || hasSubChars pat cs

/-- The Python membership test sub in s on strings. -/
def pyContains (s sub : String) : Bool :=
  hasSubChars sub.data s.data

/-- Splitter behind Python str.split(chr(10)): split at every newline,
keeping empty pieces. -/
def splitOnNl : List Char → List (List Char)
  | [] => [[]]
  | c :: cs =>
    if c = '\n' then [] :: splitOnNl cs
    else
      match splitOnNl cs with
      | [] => [[c]]
      | g :: gs => (c :: g) :: gs

/-- Python text.split(chr(10)), the line split of get_age_restriction. -/
def pyLines (s : String) : List String :=
  (splitOnNl s.data).map String.mk

/-- ASCII lowercasing of one character, the effect of the IGNORECASE
matching that strptime applies to names of weekdays and months. -/
def lowerChar (c : Char) : Char :=
  if 65 ≤ c.toNat && c.toNat ≤ 90 then Char.ofNat (c.toNat + 32) else c

/-- ASCII lowercasing of a string. -/
def pyLower (s : String) : String :=
  ⟨s.data.map lowerChar⟩

def isDigitChar (c : Char) : Bool :=
  48 ≤ c.toNat && c.toNat ≤ 57

/-- Numeric value of a digit sequence, the int conversion strptime
applies to the matched day and year digits. -/
def charsToNat : List Char → Nat → Nat
  | [], acc => acc
  | c :: cs, acc => charsToNat cs (acc * 10 + (c.toNat - 48))

/-- The lowercased abbreviated weekday names that the %a directive of
datetime.strptime accepts (matching is case-insensitive). -/
def weekdayAbbrevs : List String :=
  ["mon", "tue", "wed", "thu", "fri", "sat", "sun"]

/-- The month number assigned by the %b directive of datetime.strptime
to a lowercased abbreviated month name. -/
def monthNumber (s : String) : Option Nat :=
  if s = "jan" then some 1
  else if s = "feb" then some 2
  else if s = "mar" then some 3
  else if s = "apr" then some 4
  else if s = "may" then some 5
  else if s = "jun" then some 6
  else if s = "jul" then some 7
  else if s = "aug" then some 8
  else if s = "sep" then some 9
  else if s = "oct" then some 10
  else if s = "nov" then some 11
  else if s = "dec" then some 12
  else none

/-- The %d directive of strptime followed by the literal comma of the
format "%a %b %d, %Y": within a whitespace-free token, the token must
be one or two digits of value 1 to 31 (regex 3[01]|[12]\x5cd|0[1-9]|[1-9])
immediately closed by the comma. Returns the day value on a match. -/
def dayToken? (s : String) : Option Nat :=
  match s.data.reverse with
  | ',' :: rest =>
    if rest ≠ [] && rest.reverse.all isDigitChar && rest.length ≤ 2 &&
        1 ≤ charsToNat rest.reverse 0 && charsToNat rest.reverse 0 ≤ 31 then
      some (charsToNat rest.reverse 0)
    else none
  | _ => none

/-- The %Y directive of strptime: exactly four digits; returns the year
value on a match. -/
def yearToken? (s : String) : Option Nat :=
  if s.data.all isDigitChar && s.data.length = 4 then
    some (charsToNat s.data 0)
  else none

def isLeapYear (y : Nat) : Bool :=
  (y % 4 = 0 && y % 100 ≠ 0) || y % 400 = 0

/-- Day count of a month, as enforced by the datetime constructor that
strptime finishes with. -/
def daysInMonth (y m : Nat) : Nat :=
  if m = 2 then (if isLeapYear y then 29 else 28)
  else if m = 4 || m = 6 || m = 9 || m = 11 then 30
  else 31

/-- datetime.strptime(s, "%a %b %d, %Y") where s is the given tokens
joined by single spaces and each token is non-empty and whitespace-free
(get_event_dates always calls it on such a join). Under that shape the
full-string regex match of strptime factors token by token: the first
token must be exactly a weekday abbreviation (the %a alternation cannot
be followed by the whitespace separator otherwise), the second exactly
a month abbreviation, the third the day digits immediately closed by
the literal comma, the fourth exactly the four year digits. The weekday
name is validated but its value is discarded; the datetime constructor
then requires year at least 1 (MINYEAR) and the day to exist in the
month. Any mismatch raises ValueError. -/
def strptimeWeekdayMonthDayYear (toks : List String) : Except PyError Date :=
  match toks with
  | [w, mo, d, y] =>
    if weekdayAbbrevs.contains (pyLower w) then
      match monthNumber (pyLower mo) with
      | none => Except.error PyError.valueError
      | some m =>
        match dayToken? d with
        | none => Except.error PyError.valueError
        | some dv =>
          match yearToken? y with
          | none => Except.error PyError.valueError
          | some yv =>
            if 1 ≤ yv && dv ≤ daysInMonth yv m then
              Except.ok ⟨yv, m, dv⟩
            else
              Except.error PyError.valueError
    else
      Except.error PyError.valueError
  | _ => Except.error PyError.valueError

/-- One iteration body of the loop of get_event_dates: take the first
four whitespace-separated words of the text of the first cell of a row,
join them with spaces and parse with strptime("%a %b %d, %Y"). -/
def parseShiftDate (cellText : String) : Except PyError Date :=
  strptimeWeekdayMonthDayYear ((pySplit cellText).take 4)

/-- A tr element with tabindex 0 inside the shifts table; firstCell
is the text of its first td, none when the row has no td (row.find
returns None and reading .text raises AttributeError). -/
structure ShiftRow where
  firstCell : Option String
deriving DecidableEq, Repr

/-- An event detail page, reduced to the content the four extraction
methods read:
  panelTitle - text of the element of class panel-title, none if absent;
  shiftsTable - the rows find_all selects from the table with id
    shifts-table, none if that table is absent;
  infoLocationCell - text of the td of class text inside the location
    fragment of the program-information page that the more-info control
    leads to, none if that td is absent;
  requirementsTbody - text of the tbody inside the section of class
    requirements, none if the section or its tbody is absent. -/
structure DetailPage where
  panelTitle : Option String
  shiftsTable : Option (List ShiftRow)
  infoLocationCell : Option String
  requirementsTbody : Option String
deriving DecidableEq, Repr

/-- get_event_title: text of the panel-title element, stripped.
A missing element raises AttributeError (None.text). -/
def get_event_title (p : DetailPage) : Except PyError String :=
  match p.panelTitle with
  | none => Except.error PyError.attributeError
  | some t => Except.ok (pyStrip t)

/-- Result of get_event_dates: a list of parsed dates, or the string
sentinel value Ongoing. -/
inductive DateField where
  | shifts (dates : List Date)
  | ongoing
deriving DecidableEq, Repr

/-- The for-loop of get_event_dates over the rows of the shifts table,
run inside the try block: a row without a td raises AttributeError,
which the except clause turns into the Ongoing sentinel; a date token
that strptime rejects raises ValueError, which nothing catches. -/
def scrapeShiftRows : List ShiftRow → List Date → Except PyError DateField
  | [], acc => Except.ok (DateField.shifts acc.reverse)
  | r :: rs, acc =>
    match r.firstCell with
    | none => Except.ok DateField.ongoing
    | some txt =>
      match parseShiftDate txt with
      | Except.error e => Except.error e
      | Except.ok d => scrapeShiftRows rs (d :: acc)

/-- get_event_dates: find the shifts table and parse each row into a
datetime. When the table is absent, find returns None and find_all on
None raises AttributeError, caught and turned into Ongoing. -/
def get_event_dates (p : DetailPage) : Except PyError DateField :=
  match p.shiftsTable with
  | none => Except.ok DateField.ongoing
  | some rows => scrapeShiftRows rows []

/-- Where the browser is positioned while get_event_address runs: on
the event detail page, or on the program-information page that the
more-info control opens. -/
inductive NavPos where
  | detailPage
  | infoPage
deriving DecidableEq, Repr

/-- get_event_address together with its navigation effect. Starting on
the detail page, the method clicks the more-info control (moving to the
program-information page), reads the location fragment, takes the text
of the td of class text, strips it and collapses internal whitespace by
a split and join, then calls page.go_back() and returns the string.
When the td is absent, reading .text on None raises AttributeError
before the go_back call, so the browser is left on the information
page. -/
def get_event_address_nav (p : DetailPage) : Except PyError String × NavPos :=
  match p.infoLocationCell with
  | none => (Except.error PyError.attributeError, NavPos.infoPage)
  | some s =>
    (Except.ok (pyJoin " " (pySplit (pyStrip s))), NavPos.detailPage)

/-- The value component of get_event_address. -/
def get_event_address (p : DetailPage) : Except PyError String :=
  (get_event_address_nav p).1

/-- get_age_restriction: take the text of the tbody of the requirements
section, stripped; when it contains the phrase "and older" return the
line at index 1 of its newline split (IndexError when no such line),
otherwise return None. A missing section or tbody raises
AttributeError. -/
def get_age_restriction (p : DetailPage) : Except PyError (Option String) :=
  match p.requirementsTbody with
  | none => Except.error PyError.attributeError
  | some txt =>
    if pyContains (pyStrip txt) "and older" then
      match (pyLines (pyStrip txt))[1]? with
      | some l => Except.ok (some l)
      | none => Except.error PyError.indexError
    else
      Except.ok none

/-- The dictionary scrape_event builds for one event, with the four
keys Title, Date, Address and Age Restriction. -/
structure EventRecord where
  title : String
  date : DateField
  address : String
  ageRestriction : Option String
deriving DecidableEq, Repr

/-- The field extraction performed by scrape_event on the current event
page: the dict literal evaluates Title, Date, Address and Age
Restriction in that order, and the first exception aborts the rest. -/
def extract_record (p : DetailPage) : Except PyError EventRecord :=
  match get_event_title p with
  | Except.error e => Except.error e
  | Except.ok t =>
    match get_event_dates p with
    | Except.error e => Except.error e
    | Except.ok d =>
      match get_event_address p with
      | Except.error e => Except.error e
      | Except.ok a =>
        match get_age_restriction p with
        | Except.error e => Except.error e
        | Except.ok g => Except.ok ⟨t, d, a, g⟩

/-- The mutable attributes of a StewpotScraper instance that carry data
across calls: events_data accumulates one dict per scraped event, and
curr_event models curr_event_dict (with curr_event_html and
curr_event_soup, all overwritten together at each scrape_event call). -/
structure ScraperState where
  events_data : List EventRecord
  curr_event : Option EventRecord
deriving DecidableEq, Repr

/-- The attribute values set by the constructor of StewpotScraper:
events_data starts as the empty list. -/
def initState : ScraperState :=
  { events_data := [], curr_event := none }

/-- scrape_event: open the event page, extract the four fields into
curr_event_dict, go back to the panel and append the dict to
events_data. An exception in any extractor propagates and nothing is
appended. -/
def scrape_event (st : ScraperState) (p : DetailPage) :
    Except PyError ScraperState :=
  match extract_record p with
  | Except.error e => Except.error e
  | Except.ok r =>
    Except.ok { events_data := st.events_data ++ [r], curr_event := some r }

/-- One panel page of the events listing: the detail pages behind the
div.need event cards, in document order, and the href attributes of the
anchors of the page (read by next_page_exists). -/
structure PanelPage where
  events : List DetailPage
  anchorHrefs : List String
deriving DecidableEq, Repr

/-- next_page_exists: the soup of the panel page has an anchor with
href equal to the hard-coded string /need/index/12 (find returns the
element, truthy, or None, falsy). -/
def next_page_exists (pg : PanelPage) : Bool :=
  pg.anchorHrefs.contains "/need/index/12"

/-- The for-loop of scrape_events_panel: scrape each event card of the
current panel page in order; the first exception propagates. -/
def scrapePanelEvents : ScraperState → List DetailPage → Except PyError ScraperState
  | st, [] => Except.ok st
  | st, p :: ps =>
    match scrape_event st p with
    | Except.error e => Except.error e
    | Except.ok st' => scrapePanelEvents st' ps

/-- The while-True loop of scrape_website over the successive panel
pages of the site, also counting how many panel pages get visited.
Each iteration scrapes the current panel page, then either breaks (no
next-page anchor) or clicks the anchor for /need/index/12 and repeats;
a click when the site has no further page times out. -/
def scrapeLoop : ScraperState → List PanelPage → Except PyError (ScraperState × Nat)
  | _, [] => Except.error PyError.timeoutError
  | st, pg :: rest =>
    match scrapePanelEvents st pg.events with
    | Except.error e => Except.error e
    | Except.ok st' =>
      if next_page_exists pg then
        match scrapeLoop st' rest with
        | Except.error e => Except.error e
        | Except.ok (stf, n) => Except.ok (stf, n + 1)
      else
        Except.ok (st', 1)

/-- scrape_website: run the loop and return events_data. There is no
try/except anywhere in the class, so any exception escapes the with
block (which only closes the browser) and the return statement is never
reached: the caller gets the exception, not a list. The state component
records the instance attributes after the call. -/
def scrape_website (st : ScraperState) (site : List PanelPage) :
    Except PyError (ScraperState × List EventRecord) :=
  match scrapeLoop st site with
  | Except.error e => Except.error e
  | Except.ok (st', _) => Except.ok (st', st'.events_data)

/-- The outcome of parsing one shifts-table row exactly as the loop
body of get_event_dates does: AttributeError for a row without a td,
otherwise strptime on the first four words of the cell text. -/
def rowDateResult (r : ShiftRow) : Except PyError Date :=
  match r.firstCell with
  | none => Except.error PyError.attributeError
  | some txt => parseShiftDate txt

/-- A date is valid when the datetime constructor accepts it. -/
def validDate (d : Date) : Bool :=
  1 ≤ d.year && 1 ≤ d.month && d.month ≤ 12 &&
    1 ≤ d.day && d.day ≤ daysInMonth d.year d.month

/-- The EventRecord invariant stated by the data-model section of the
specification: non-empty title and address, shift dates a non-empty
sequence of valid dates or the Ongoing sentinel, age restriction absent
or a non-empty phrase. -/
def validRecord (r : EventRecord) : Bool :=
  r.title ≠ "" && r.address ≠ "" &&
    (match r.date with
     | DateField.shifts l => !l.isEmpty && l.all validDate
     | DateField.ongoing => true) &&
    (match r.ageRestriction with
     | some s => s ≠ ""
     | none => true)

/-!
Concrete fixtures, used below to evaluate the embedding at the inputs
of the witnesses and counterexamples.
-/

/-- A detail page without a shifts table and without an age phrase. -/
def pageOngoing : DetailPage :=
  { panelTitle := some "Event", shiftsTable := none,
    infoLocationCell := some "A", requirementsTbody := some "x" }

/-- The record scrape_event extracts from pageOngoing. -/
def recOngoing : EventRecord :=
  { title := "Event", date := DateField.ongoing, address := "A",
    ageRestriction := none }

/-- The scraper state after scraping pageOngoing once from a fresh
instance. -/
def stateOne : ScraperState :=
  { events_data := [recOngoing], curr_event := some recOngoing }

/-- The scraper state after scraping pageOngoing twice from a fresh
instance. -/
def stateTwo : ScraperState :=
  { events_data := [recOngoing, recOngoing], curr_event := some recOngoing }

/-- A detail page carrying all four fields, matching the end-to-end
fixture of the specification. -/
def pageFull : DetailPage :=
  { panelTitle := some " Food Pantry ",
    shiftsTable := some [⟨some "Mon Jan 5, 2024 9am to 11am"⟩],
    infoLocationCell := some " 123  Main St ",
    requirementsTbody := some "Age Requirement\n18 and older" }

/-- The record scrape_event extracts from pageFull. -/
def recFull : EventRecord :=
  { title := "Food Pantry", date := DateField.shifts [⟨2024, 1, 5⟩],
    address := "123 Main St", ageRestriction := some "18 and older" }

/-!
Helper lemmas shared by the claim theorems below.
-/

theorem pySplitAux_ne_nil (cs : List Char) :
    ∀ (cur : List Char), ∀ t ∈ pySplitAux cs cur, t ≠ [] := by
  induction cs with
  | nil =>
    intro cur t ht
    simp only [pySplitAux] at ht
    split at ht
    case isTrue h => simp at ht
    case isFalse h =>
      simp only [List.mem_singleton] at ht
      subst ht
      intro hr
      exact h (List.reverse_eq_nil_iff.mp hr)
  | cons c cs ih =>
    intro cur t ht
    simp only [pySplitAux] at ht
    split at ht
    case isTrue =>
      split at ht
      case isTrue => exact ih [] t ht
      case isFalse h =>
        rcases List.mem_cons.mp ht with h1 | h1
        · subst h1
          intro hr
          exact h (List.reverse_eq_nil_iff.mp hr)
        · exact ih [] t h1
    case isFalse => exact ih (c :: cur) t ht

theorem pySplit_mem_ne_nil (s : String) : ∀ t ∈ pySplit s, t ≠ "" := by
  intro t ht
  simp only [pySplit, List.mem_map] at ht
  obtain ⟨cs, hcs, rfl⟩ := ht
  have hnil := pySplitAux_ne_nil s.data [] cs hcs
  intro h
  apply hnil
  have hd := congrArg String.data h
  exact hd

theorem pyJoin_space_ne_nil (ts : List String) (h0 : ts ≠ [])
    (h1 : ∀ t ∈ ts, t ≠ "") : pyJoin " " ts ≠ "" := by
  match ts with
  | [] => exact absurd rfl h0
  | [t] => simpa [pyJoin] using h1 t (by simp)
  | t :: u :: ts =>
    intro hne
    have hlen : (pyJoin " " (t :: u :: ts)).length =
        t.length + (" " : String).length + (pyJoin " " (u :: ts)).length := by
      simp [pyJoin, String.length_append]
    rw [hne] at hlen
    have hsp : (" " : String).length = 1 := rfl
    have hz : ("" : String).length = 0 := rfl
    rw [hz, hsp] at hlen
    omega

set_option maxHeartbeats 2000000 in
theorem monthNumber_bounds (s : String) (m : Nat)
    (h : monthNumber s = some m) : 1 ≤ m ∧ m ≤ 12 := by
  unfold monthNumber at h
  repeat' split at h
  all_goals
    first
    | exact Option.noConfusion h
    | (injection h with h; omega)

theorem dayToken_bounds (s : String) (n : Nat) (h : dayToken? s = some n) :
    1 ≤ n ∧ n ≤ 31 := by
  unfold dayToken? at h
  split at h
  case h_2 => exact Option.noConfusion h
  case h_1 rest =>
    split at h
    case isFalse => exact Option.noConfusion h
    case isTrue hc =>
      injection h with h
      subst h
      simp only [Bool.and_eq_true, decide_eq_true_eq] at hc
      exact ⟨hc.1.2, hc.2⟩

theorem strptime_ok_valid (toks : List String) (d : Date)
    (h : strptimeWeekdayMonthDayYear toks = Except.ok d) :
    validDate d = true := by
  unfold strptimeWeekdayMonthDayYear at h
  split at h
  case h_2 => exact Except.noConfusion h
  case h_1 w mo dd y =>
    split at h
    case isFalse => exact Except.noConfusion h
    case isTrue =>
      split at h
      case h_1 hm => exact Except.noConfusion h
      case h_2 m hm =>
        split at h
        case h_1 hd => exact Except.noConfusion h
        case h_2 dv hdv =>
          split at h
          case h_1 hy => exact Except.noConfusion h
          case h_2 yv hyv =>
            split at h
            case isFalse => exact Except.noConfusion h
            case isTrue hb =>
              injection h with h
              subst h
              obtain ⟨hm1, hm2⟩ := monthNumber_bounds _ _ hm
              obtain ⟨hd1, hd2⟩ := dayToken_bounds _ _ hdv
              simp only [Bool.and_eq_true, decide_eq_true_eq] at hb
              simp only [validDate, Bool.and_eq_true, decide_eq_true_eq]
              exact ⟨⟨⟨⟨hb.1, hm1⟩, hm2⟩, hd1⟩, hb.2⟩

theorem scrapeShiftRows_ok_of_map (rows : List ShiftRow) :
    ∀ (ds acc : List Date),
      rows.map rowDateResult = ds.map Except.ok →
      scrapeShiftRows rows acc =
        Except.ok (DateField.shifts (acc.reverse ++ ds)) := by
  induction rows with
  | nil =>
    intro ds acc h
    cases ds with
    | nil => simp [scrapeShiftRows]
    | cons d ds => simp at h
  | cons r rs ih =>
    intro ds acc h
    cases ds with
    | nil => simp at h
    | cons d ds =>
      simp only [List.map_cons, List.cons.injEq] at h
      obtain ⟨h1, h2⟩ := h
      cases hc : r.firstCell with
      | none =>
        simp only [rowDateResult, hc] at h1
        exact Except.noConfusion h1
      | some txt =>
        simp only [rowDateResult, hc] at h1
        have hrec := ih ds (d :: acc) h2
        simp only [scrapeShiftRows, hc, h1]
        rw [hrec]
        simp

theorem scrapeShiftRows_shifts_shape (rows : List ShiftRow) :
    ∀ (acc l : List Date),
      scrapeShiftRows rows acc = Except.ok (DateField.shifts l) →
      ∃ ds, l = acc.reverse ++ ds ∧ ds.length = rows.length ∧
        ∀ d ∈ ds, validDate d = true := by
  induction rows with
  | nil =>
    intro acc l h
    simp only [scrapeShiftRows, Except.ok.injEq, DateField.shifts.injEq] at h
    exact ⟨[], by simp [h]⟩
  | cons r rs ih =>
    intro acc l h
    cases hc : r.firstCell with
    | none =>
      simp only [scrapeShiftRows, hc] at h
      exact absurd h (by simp)
    | some txt =>
      simp only [scrapeShiftRows, hc] at h
      cases hp : parseShiftDate txt with
      | error e =>
        rw [hp] at h
        exact Except.noConfusion h
      | ok d =>
        rw [hp] at h
        obtain ⟨ds, hl, hlen, hval⟩ := ih (d :: acc) l h
        refine ⟨d :: ds, ?_, by simp [hlen], ?_⟩
        · rw [hl]
          simp
        · intro x hx
          cases hx with
          | head => exact strptime_ok_valid _ _ hp
          | tail _ hx => exact hval x hx

theorem scrapeShiftRows_error_at (good : List ShiftRow) :
    ∀ (acc : List Date) (bad : ShiftRow) (more : List ShiftRow) (txt : String),
      (∀ r ∈ good, ∃ t dt, r.firstCell = some t ∧
        parseShiftDate t = Except.ok dt) →
      bad.firstCell = some txt →
      parseShiftDate txt = Except.error PyError.valueError →
      scrapeShiftRows (good ++ bad :: more) acc =
        Except.error PyError.valueError := by
  induction good with
  | nil =>
    intro acc bad more txt _ hc hp
    simp [scrapeShiftRows, hc, hp]
  | cons r rs ih =>
    intro acc bad more txt hg hc hp
    obtain ⟨t, dt, hcell, hok⟩ := hg r (by simp)
    simp only [List.cons_append, scrapeShiftRows, hcell, hok]
    exact ih _ bad more txt (fun x hx => hg x (by simp [hx])) hc hp

theorem scrapePanelEvents_append (ps1 : List DetailPage) :
    ∀ (st st2 : ScraperState) (ps2 : List DetailPage),
      scrapePanelEvents st ps1 = Except.ok st2 →
      scrapePanelEvents st (ps1 ++ ps2) = scrapePanelEvents st2 ps2 := by
  induction ps1 with
  | nil =>
    intro st st2 ps2 h
    simp only [scrapePanelEvents, Except.ok.injEq] at h
    subst h
    simp
  | cons p ps ih =>
    intro st st2 ps2 h
    cases hs : scrape_event st p with
    | error e =>
      simp only [scrapePanelEvents, hs] at h
      exact Except.noConfusion h
    | ok st1 =>
      simp only [scrapePanelEvents, hs] at h
      simp only [List.cons_append, scrapePanelEvents, hs]
      exact ih st1 st2 ps2 h

theorem scrapePanelEvents_grows (ps : List DetailPage) :
    ∀ (st st2 : ScraperState),
      scrapePanelEvents st ps = Except.ok st2 →
      ∃ new, st2.events_data = st.events_data ++ new := by
  induction ps with
  | nil =>
    intro st st2 h
    simp only [scrapePanelEvents, Except.ok.injEq] at h
    subst h
    exact ⟨[], by simp⟩
  | cons p ps ih =>
    intro st st2 h
    cases hs : scrape_event st p with
    | error e =>
      simp only [scrapePanelEvents, hs] at h
      exact Except.noConfusion h
    | ok st1 =>
      simp only [scrapePanelEvents, hs] at h
      obtain ⟨new2, h2⟩ := ih st1 st2 h
      unfold scrape_event at hs
      cases he : extract_record p with
      | error e =>
        rw [he] at hs
        exact Except.noConfusion hs
      | ok r =>
        rw [he] at hs
        injection hs with hs
        subst hs
        exact ⟨r :: new2, by simp [h2]⟩

theorem scrapeLoop_grows (site : List PanelPage) :
    ∀ (st st2 : ScraperState) (n : Nat),
      scrapeLoop st site = Except.ok (st2, n) →
      ∃ new, st2.events_data = st.events_data ++ new := by
  induction site with
  | nil =>
    intro st st2 n h
    exact Except.noConfusion h
  | cons pg rest ih =>
    intro st st2 n h
    cases hs : scrapePanelEvents st pg.events with
    | error e =>
      simp only [scrapeLoop, hs] at h
      exact Except.noConfusion h
    | ok st1 =>
      simp only [scrapeLoop, hs] at h
      obtain ⟨new1, h1⟩ := scrapePanelEvents_grows pg.events st st1 hs
      by_cases hn : next_page_exists pg
      · rw [if_pos hn] at h
        cases hl : scrapeLoop st1 rest with
        | error e =>
          rw [hl] at h
          exact Except.noConfusion h
        | ok pr =>
          obtain ⟨stf, n2⟩ := pr
          simp only [hl] at h
          obtain ⟨new2, h2⟩ := ih st1 stf n2 hl
          cases h
          exact ⟨new1 ++ new2, by rw [h2, h1, List.append_assoc]⟩
      · rw [if_neg hn] at h
        cases h
        exact ⟨new1, h1⟩

/-!
The claims. Each claim of the specification gets one theorem, with a
witness or counterexample where called for.
-/

/-- C1: for every detail page holding a well-formed shifts table — every
row has a first cell whose first four whitespace-separated words parse
with the format "%a %b %d, %Y" — get_event_dates returns exactly the
list of dates obtained by parsing each row this way, in the order the
rows appear in the document. -/
theorem claim1_shift_dates_row_order (p : DetailPage) (rows : List ShiftRow)
    (ds : List Date) (htab : p.shiftsTable = some rows)
    (hrows : rows.map rowDateResult = ds.map Except.ok) :
    get_event_dates p = Except.ok (DateField.shifts ds) := by
  unfold get_event_dates
  rw [htab]
  simpa using scrapeShiftRows_ok_of_map rows ds [] hrows

/-- C1 witness: a concrete two-row shifts table, scraped in row order. -/
theorem claim1_shift_dates_row_order_witness :
    get_event_dates
        { panelTitle := some "Event",
          shiftsTable := some [⟨some "Mon Jan 5, 2024 9am to 11am"⟩,
            ⟨some "Tue Dec 31, 1999"⟩],
          infoLocationCell := some "A", requirementsTbody := some "x" } =
      Except.ok (DateField.shifts [⟨2024, 1, 5⟩, ⟨1999, 12, 31⟩]) :=
  claim1_shift_dates_row_order _ _ _ rfl (by decide)

/-- C2: on every detail page with no shifts table element,
get_event_dates returns the Ongoing sentinel: the AttributeError raised
by calling find_all on None is caught, so no error escapes, and the
result is never the empty list in that case. -/
theorem claim2_no_table_gives_ongoing (p : DetailPage)
    (h : p.shiftsTable = none) :
    get_event_dates p = Except.ok DateField.ongoing := by
  unfold get_event_dates
  rw [h]

/-- C2 witness: a concrete detail page with no shifts table. -/
theorem claim2_no_table_gives_ongoing_witness :
    get_event_dates pageOngoing = Except.ok DateField.ongoing :=
  claim2_no_table_gives_ongoing pageOngoing rfl

/-- C3 counterexample: a requirements table body whose stripped text is
the single line "18 and older" contains the phrase "and older", yet
get_age_restriction returns no line at all: the index-1 lookup of the
newline split raises IndexError, refuting the claim that the second
line is returned whenever the text contains the phrase. -/
theorem claim3_counterexample :
    pyContains (pyStrip "18 and older") "and older" = true ∧
    get_age_restriction
        { panelTitle := some "Event", shiftsTable := none,
          infoLocationCell := some "A",
          requirementsTbody := some "18 and older" } =
      Except.error PyError.indexError :=
  ⟨by decide, by decide⟩

/-- C3 amended: for every detail page whose requirements-section tbody
text is present, get_age_restriction returns the line at index 1 of the
newline split of the stripped text whenever the text contains the
phrase "and older" and such a line exists, and returns None whenever
the text does not contain the phrase. -/
theorem claim3_age_restriction_amended (p : DetailPage) (txt : String)
    (h : p.requirementsTbody = some txt) :
    (pyContains (pyStrip txt) "and older" = false →
      get_age_restriction p = Except.ok none) ∧
    (∀ l, pyContains (pyStrip txt) "and older" = true →
      (pyLines (pyStrip txt))[1]? = some l →
      get_age_restriction p = Except.ok (some l)) := by
  constructor
  · intro hc
    simp [get_age_restriction, h, hc]
  · intro l hc hl
    simp [get_age_restriction, h, hc, hl]

/-- C3 witness: a two-line requirements text containing the phrase. -/
theorem claim3_age_restriction_amended_witness :
    get_age_restriction
        { panelTitle := some "Event", shiftsTable := none,
          infoLocationCell := some "A",
          requirementsTbody := some "Age Requirement\n18 and older" } =
      Except.ok (some "18 and older") :=
  (claim3_age_restriction_amended _ "Age Requirement\n18 and older" rfl).2
    "18 and older" (by decide) (by decide)

/-- C4: the scrape_website loop continues to a further panel page
exactly when next_page_exists reports the hard-coded next-page anchor
present, and stops otherwise; in particular, a run whose first panel
page has the anchor and whose second does not visits exactly two panel
pages and then stops. -/
theorem claim4_pagination_two_pages (st st1 st2 : ScraperState)
    (p1 p2 : PanelPage)
    (h1 : next_page_exists p1 = true) (h2 : next_page_exists p2 = false)
    (e1 : scrapePanelEvents st p1.events = Except.ok st1)
    (e2 : scrapePanelEvents st1 p2.events = Except.ok st2) :
    scrapeLoop st [p1, p2] = Except.ok (st2, 2) ∧
    ∀ (q : PanelPage) (rest : List PanelPage) (s s2 : ScraperState),
      next_page_exists q = false →
      scrapePanelEvents s q.events = Except.ok s2 →
      scrapeLoop s (q :: rest) = Except.ok (s2, 1) := by
  have stop : ∀ (q : PanelPage) (rest : List PanelPage)
      (s s2 : ScraperState),
      next_page_exists q = false →
      scrapePanelEvents s q.events = Except.ok s2 →
      scrapeLoop s (q :: rest) = Except.ok (s2, 1) := by
    intro q rest s s2 hq hs
    simp [scrapeLoop, hs, hq]
  have step : ∀ (q : PanelPage) (rest : List PanelPage)
      (s s2 r : ScraperState) (n : Nat),
      next_page_exists q = true →
      scrapePanelEvents s q.events = Except.ok s2 →
      scrapeLoop s2 rest = Except.ok (r, n) →
      scrapeLoop s (q :: rest) = Except.ok (r, n + 1) := by
    intro q rest s s2 r n hq hs hl
    simp [scrapeLoop, hs, hq, hl]
  refine ⟨?_, stop⟩
  exact step p1 [p2] st st1 st2 1 h1 e1 (stop p2 [] st1 st2 h2 e2)

/-- C4 witness: a two-page site where only the first panel page carries
the anchor for /need/index/12. -/
theorem claim4_pagination_two_pages_witness :
    scrapeLoop initState
        [⟨[], ["/need/index/12"]⟩, ⟨[], ["/need/index/24"]⟩] =
      Except.ok (initState, 2) :=
  (claim4_pagination_two_pages initState initState initState
    ⟨[], ["/need/index/12"]⟩ ⟨[], ["/need/index/24"]⟩
    (by decide) (by decide) rfl rfl).1

/-- C5 counterexample: a detail page whose shifts table is present but
selects no rows yields a record whose Date field is the empty list,
neither a non-empty sequence of dates nor the Ongoing sentinel, so the
stated EventRecord invariant fails on a producible record. -/
theorem claim5_counterexample :
    extract_record
        { panelTitle := some "Food Drive", shiftsTable := some [],
          infoLocationCell := some "123 Main St",
          requirementsTbody := some "no requirements" } =
      Except.ok
        { title := "Food Drive", date := (DateField.shifts []),
          address := "123 Main St", ageRestriction := none } ∧
    validRecord
        { title := "Food Drive", date := (DateField.shifts []),
          address := "123 Main St", ageRestriction := none } = false :=
  ⟨by decide, by decide⟩

/-- C5 amended: every EventRecord extracted from a detail page whose
panel title strips to a non-empty string, whose location cell holds at
least one word, whose shifts table (when present) selects at least one
row, and whose extracted age-restriction line (when one exists) is
non-empty, satisfies the invariant: non-empty title and address, shift
dates a non-empty sequence of valid dates or the Ongoing sentinel, age
restriction absent or a non-empty phrase. -/
theorem claim5_invariant_amended (p : DetailPage) (r : EventRecord)
    (hr : extract_record p = Except.ok r)
    (htitle : ∀ t, p.panelTitle = some t → pyStrip t ≠ "")
    (haddr : ∀ s, p.infoLocationCell = some s → pySplit (pyStrip s) ≠ [])
    (htab : p.shiftsTable ≠ some [])
    (hage : ∀ txt l, p.requirementsTbody = some txt →
      (pyLines (pyStrip txt))[1]? = some l → l ≠ "") :
    validRecord r = true := by
  cases het : get_event_title p with
  | error e =>
    simp only [extract_record, het] at hr
    exact Except.noConfusion hr
  | ok t =>
    cases hed : get_event_dates p with
    | error e =>
      simp only [extract_record, het, hed] at hr
      exact Except.noConfusion hr
    | ok dfield =>
      cases hea : get_event_address p with
      | error e =>
        simp only [extract_record, het, hed, hea] at hr
        exact Except.noConfusion hr
      | ok a =>
        cases heg : get_age_restriction p with
        | error e =>
          simp only [extract_record, het, hed, hea, heg] at hr
          exact Except.noConfusion hr
        | ok g =>
          simp only [extract_record, het, hed, hea, heg] at hr
          injection hr with hr
          subst hr
          have ht2 : t ≠ "" := by
            cases hpt : p.panelTitle with
            | none =>
              simp only [get_event_title, hpt] at het
              exact Except.noConfusion het
            | some t0 =>
              simp only [get_event_title, hpt, Except.ok.injEq] at het
              subst het
              exact htitle t0 hpt
          have ha2 : a ≠ "" := by
            cases hic : p.infoLocationCell with
            | none =>
              simp only [get_event_address, get_event_address_nav, hic] at hea
              exact Except.noConfusion hea
            | some s0 =>
              simp only [get_event_address, get_event_address_nav, hic,
                Except.ok.injEq] at hea
              subst hea
              exact pyJoin_space_ne_nil _ (haddr s0 hic)
                (pySplit_mem_ne_nil (pyStrip s0))
          simp only [validRecord, Bool.and_eq_true, decide_eq_true_eq]
          refine ⟨⟨⟨ht2, ha2⟩, ?_⟩, ?_⟩
          · cases dfield with
            | ongoing => simp
            | shifts l =>
              cases hst : p.shiftsTable with
              | none =>
                simp only [get_event_dates, hst, Except.ok.injEq] at hed
                exact DateField.noConfusion hed
              | some rows =>
                simp only [get_event_dates, hst] at hed
                obtain ⟨ds, hl, hlen, hval⟩ :=
                  scrapeShiftRows_shifts_shape rows [] l hed
                simp only [List.reverse_nil, List.nil_append] at hl
                have hrows2 : rows ≠ [] := by
                  intro hreq
                  apply htab
                  rw [hst, hreq]
                have hds2 : l ≠ [] := by
                  rw [hl]
                  intro hds
                  apply hrows2
                  apply List.eq_nil_of_length_eq_zero
                  rw [← hlen, hds]
                  rfl
                simp only [Bool.and_eq_true]
                constructor
                · cases hll : l with
                  | nil => exact absurd hll hds2
                  | cons x xs => simp
                · rw [List.all_eq_true]
                  intro x hx
                  apply hval
                  rw [← hl]
                  exact hx
          · cases g with
            | none => simp
            | some gs =>
              simp only [decide_eq_true_eq]
              cases hrq : p.requirementsTbody with
              | none =>
                simp only [get_age_restriction, hrq] at heg
                exact Except.noConfusion heg
              | some txt =>
                simp only [get_age_restriction, hrq] at heg
                split at heg
                · cases hgl : (pyLines (pyStrip txt))[1]? with
                  | none =>
                    simp only [hgl] at heg
                    exact Except.noConfusion heg
                  | some l0 =>
                    simp only [hgl, Except.ok.injEq, Option.some.injEq] at heg
                    subst heg
                    exact hage txt l0 hrq hgl
                · simp only [Except.ok.injEq] at heg
                  exact Option.noConfusion heg

/-- C5 witness for the amended invariant, at a page holding all four
fields. -/
theorem claim5_invariant_amended_witness :
    validRecord recFull = true :=
  claim5_invariant_amended pageFull recFull (by decide)
    (by
      intro t ht
      injection ht with ht
      subst ht
      decide)
    (by
      intro s hs
      injection hs with hs
      subst hs
      decide)
    (by decide)
    (by
      intro txt l htxt hl
      injection htxt with htxt
      subst htxt
      have hv : (pyLines (pyStrip "Age Requirement\n18 and older"))[1]? =
          some "18 and older" := by decide
      rw [hv] at hl
      injection hl with hl
      subst hl
      decide)

/-- C6: if extraction of the fields of any single event raises, the
whole scrape_website run aborts with that error: the failing event is
not skipped or retried, the rest of the site is never visited, and the
events already scraped in the run are not returned to the caller. -/
theorem claim6_failure_aborts_run (st st2 : ScraperState)
    (ps1 ps2 : List DetailPage) (bad : DetailPage)
    (anchors : List String) (rest : List PanelPage) (e : PyError)
    (h1 : scrapePanelEvents st ps1 = Except.ok st2)
    (h2 : extract_record bad = Except.error e) :
    scrape_website st (⟨ps1 ++ bad :: ps2, anchors⟩ :: rest) =
      Except.error e := by
  have hpanel : scrapePanelEvents st (ps1 ++ bad :: ps2) =
      Except.error e := by
    rw [scrapePanelEvents_append ps1 st st2 (bad :: ps2) h1]
    simp [scrapePanelEvents, scrape_event, h2]
  simp [scrape_website, scrapeLoop, hpanel]

/-- C6 witness: a run over one panel page whose second event page has
no panel-title element; the record of the first event is scraped and
then lost. -/
theorem claim6_failure_aborts_run_witness :
    scrape_website initState
        [⟨[pageOngoing,
            { panelTitle := none, shiftsTable := none,
              infoLocationCell := some "B", requirementsTbody := some "x" }],
          []⟩] =
      Except.error PyError.attributeError :=
  claim6_failure_aborts_run initState stateOne [pageOngoing] []
    { panelTitle := none, shiftsTable := none,
      infoLocationCell := some "B", requirementsTbody := some "x" }
    [] [] PyError.attributeError (by decide) (by decide)

/-- C7: the claim that get_event_address always leaves the browser back
on the event detail page fails on the code: at a detail page whose
program-information location fragment has no td of class text, the
extraction raises AttributeError before page.go_back() runs, and the
browser stays on the information page. -/
theorem claim7_navigation_not_restored :
    get_event_address_nav
        { panelTitle := some "Event", shiftsTable := none,
          infoLocationCell := none, requirementsTbody := some "x" } =
      (Except.error PyError.attributeError, NavPos.infoPage) ∧
    NavPos.infoPage ≠ NavPos.detailPage :=
  ⟨rfl, by decide⟩

/-- C8 counterexample: in a shifts table whose first row has no td and
whose second row has the unparseable first-cell text "garbage",
get_event_dates raises no error at all: the AttributeError from the
first row is caught and the Ongoing sentinel is returned, so the
malformed second row is converted into an alternate result, refuting
the claim for that row. -/
theorem claim8_counterexample :
    parseShiftDate "garbage" = Except.error PyError.valueError ∧
    get_event_dates
        { panelTitle := some "Event",
          shiftsTable := some [⟨none⟩, ⟨some "garbage"⟩],
          infoLocationCell := some "A", requirementsTbody := some "x" } =
      Except.ok DateField.ongoing :=
  ⟨by decide, by decide⟩

/-- C8 amended: for every shifts-table row whose first-cell date token
does not match the expected format, provided each earlier row of the
table parses successfully, get_event_dates raises ValueError; no
handler in the scraper catches it — it is not turned into the Ongoing
sentinel or any other result, the whole field extraction of the event
fails, and a scrape_website run that reaches the event terminates with
the error instead of returning data. -/
theorem claim8_parse_error_is_fatal (p : DetailPage)
    (good more : List ShiftRow) (bad : ShiftRow) (txt tt : String)
    (htab : p.shiftsTable = some (good ++ bad :: more))
    (hgood : ∀ r ∈ good, ∃ t dt, r.firstCell = some t ∧
      parseShiftDate t = Except.ok dt)
    (hbadcell : bad.firstCell = some txt)
    (hbadparse : parseShiftDate txt = Except.error PyError.valueError)
    (htitle : get_event_title p = Except.ok tt) :
    get_event_dates p = Except.error PyError.valueError ∧
    extract_record p = Except.error PyError.valueError ∧
    ∀ (st st2 : ScraperState) (pre post : List DetailPage)
      (anchors : List String) (rest : List PanelPage),
      scrapePanelEvents st pre = Except.ok st2 →
      scrape_website st (⟨pre ++ p :: post, anchors⟩ :: rest) =
        Except.error PyError.valueError := by
  have hdates : get_event_dates p = Except.error PyError.valueError := by
    unfold get_event_dates
    rw [htab]
    exact scrapeShiftRows_error_at good [] bad more txt hgood hbadcell
      hbadparse
  have hrec : extract_record p = Except.error PyError.valueError := by
    simp only [extract_record, htitle, hdates]
  refine ⟨hdates, hrec, ?_⟩
  intro st st2 pre post anchors rest hpre
  have hpanel : scrapePanelEvents st (pre ++ p :: post) =
      Except.error PyError.valueError := by
    rw [scrapePanelEvents_append pre st st2 (p :: post) hpre]
    simp [scrapePanelEvents, scrape_event, hrec]
  simp [scrape_website, scrapeLoop, hpanel]

/-- C8 witness: a run that reaches an event whose shifts table has one
good row and then the unparseable row "whenever works" dies with
ValueError. -/
theorem claim8_parse_error_is_fatal_witness :
    scrape_website initState
        [⟨[{ panelTitle := some "Event",
              shiftsTable := some [⟨some "Mon Jan 5, 2024 9am"⟩,
                ⟨some "whenever works"⟩],
              infoLocationCell := some "A",
              requirementsTbody := some "x" }], []⟩] =
      Except.error PyError.valueError :=
  (claim8_parse_error_is_fatal
      { panelTitle := some "Event",
        shiftsTable := some [⟨some "Mon Jan 5, 2024 9am"⟩,
          ⟨some "whenever works"⟩],
        infoLocationCell := some "A", requirementsTbody := some "x" }
      [⟨some "Mon Jan 5, 2024 9am"⟩] [] ⟨some "whenever works"⟩
      "whenever works" "Event" rfl
      (by
        intro r hr
        simp only [List.mem_singleton] at hr
        subst hr
        exact ⟨"Mon Jan 5, 2024 9am", ⟨2024, 1, 5⟩, rfl, by decide⟩)
      rfl (by decide) (by decide)).2.2
    initState initState [] [] [] [] rfl

/-- C9: extraction is deterministic: scraping the same detail page from
any two scraper states produces the same record — each call appends
exactly the record it stores in curr_event, and the two curr_event
values coincide — so no hidden mutable state of the instance
influences the extracted field values. -/
theorem claim9_extraction_deterministic (st1 st2 stA stB : ScraperState)
    (p : DetailPage)
    (h1 : scrape_event st1 p = Except.ok stA)
    (h2 : scrape_event st2 p = Except.ok stB) :
    stA.curr_event = stB.curr_event ∧ stA.curr_event ≠ none ∧
    stA.events_data = st1.events_data ++ stA.curr_event.toList ∧
    stB.events_data = st2.events_data ++ stB.curr_event.toList := by
  cases he : extract_record p with
  | error e =>
    simp only [scrape_event, he] at h1
    exact Except.noConfusion h1
  | ok r =>
    simp only [scrape_event, he] at h1 h2
    injection h1 with h1
    injection h2 with h2
    subst h1
    subst h2
    simp

/-- C9 witness: scraping the same fixture twice in a row appends two
identical records. -/
theorem claim9_extraction_deterministic_witness :
    stateOne.curr_event = stateTwo.curr_event ∧
    stateOne.curr_event ≠ none ∧
    stateOne.events_data = initState.events_data ++ stateOne.curr_event.toList ∧
    stateTwo.events_data = stateOne.events_data ++ stateTwo.curr_event.toList :=
  claim9_extraction_deterministic initState stateOne stateOne stateTwo
    pageOngoing (by decide) (by decide)

/-- C10: each scrape_website call returns exactly the accumulated
events_data attribute, initialized once at construction and only ever
appended to, so the result of a second call on the same instance
extends the result of the first call instead of being independent of
it. -/
theorem claim10_results_accumulate (site1 site2 : List PanelPage)
    (st1 st2 : ScraperState) (r1 r2 : List EventRecord)
    (h1 : scrape_website initState site1 = Except.ok (st1, r1))
    (h2 : scrape_website st1 site2 = Except.ok (st2, r2)) :
    st1.events_data = r1 ∧ st2.events_data = r2 ∧
    r2.take r1.length = r1 := by
  unfold scrape_website at h1 h2
  cases hl1 : scrapeLoop initState site1 with
  | error e =>
    simp only [hl1] at h1
    exact Except.noConfusion h1
  | ok pr1 =>
    obtain ⟨s1, n1⟩ := pr1
    simp only [hl1] at h1
    injection h1 with h1
    rw [Prod.mk.injEq] at h1
    obtain ⟨hA1, hB1⟩ := h1
    subst hA1
    subst hB1
    cases hl2 : scrapeLoop s1 site2 with
    | error e =>
      simp only [hl2] at h2
      exact Except.noConfusion h2
    | ok pr2 =>
      obtain ⟨s2, n2⟩ := pr2
      simp only [hl2] at h2
      injection h2 with h2
      rw [Prod.mk.injEq] at h2
      obtain ⟨hA2, hB2⟩ := h2
      subst hA2
      subst hB2
      refine ⟨rfl, rfl, ?_⟩
      obtain ⟨new, hnew⟩ := scrapeLoop_grows site2 s1 s2 n2 hl2
      rw [hnew]
      exact List.take_left _ _

/-- C10 witness: two successive runs over a one-page site on the same
instance; the second returned list repeats the record of the first. -/
theorem claim10_results_accumulate_witness :
    stateOne.events_data = [recOngoing] ∧
    stateTwo.events_data = [recOngoing, recOngoing] ∧
    ([recOngoing, recOngoing] : List EventRecord).take
        ([recOngoing] : List EventRecord).length = [recOngoing] :=
  claim10_results_accumulate [⟨[pageOngoing], []⟩] [⟨[pageOngoing], []⟩]
    stateOne stateTwo [recOngoing] [recOngoing, recOngoing]
    (by decide) (by decide)

end Stewpot
